import Mathlib

/-!
# Verification of the Definition Studio core (StatusBarFramework)

Shallow embedding of the schema/format model of the Definition Studio
component (`components/manager/modules/DefinitionStudio.vue`) together with
the data types it uses (`types/data.ts`).

JavaScript `Record<string, T>` objects are modelled as association lists
`List (String × T)` with JS object semantics: assigning to an existing key
updates the entry in place, assigning to a fresh key appends, `delete`
removes the entry.  JS string falsiness checks (`!s`) become `s = ""`
checks; `a || b` on a possibly-undefined string becomes `jsOrElse`.
-/

namespace StatusBarFramework

/-- `DataType` from types/data.ts: basic value types for parts. -/
inductive DataType
  | string
  | number
  | boolean
deriving DecidableEq

/-- `EntryType` from types/data.ts: Single = one instance, List = collection. -/
inductive EntryType
  | Single
  | List
deriving DecidableEq

/-- `CategoryScope` from types/data.ts. -/
inductive CategoryScope
  | shared
  | character
deriving DecidableEq

/-- `CategoryDefinition` from types/data.ts. -/
structure CategoryDefinition where
  key : String
  name : String
  icon : String
  order : Int
  scope : CategoryScope
deriving DecidableEq

/-- Optional validation metadata of a part (carried only, never enforced). -/
structure PartValidation where
  min : Option Int := none
  max : Option Int := none
  pattern : Option String := none
deriving DecidableEq

/-- `ItemDefinitionPart` from types/data.ts. -/
structure ItemDefinitionPart where
  key : String
  label : String
  data_type : DataType
  validation : Option PartValidation := none
deriving DecidableEq

/-- `interaction_type` union from types/data.ts. -/
inductive InteractionType
  | none
  | fill_input
  | send_chat
  | custom_script
deriving DecidableEq

/-- `ItemDefinition` from types/data.ts. -/
structure ItemDefinition where
  key : String
  name : String
  icon : Option String := Option.none
  category : String
  entry_type : EntryType
  parts : List ItemDefinitionPart
  separator : String
  secondary_separator : Option String := Option.none
  ui_type : Option String := Option.none
  interaction_type : Option InteractionType := Option.none
  format : Option String := Option.none
  description : Option String := Option.none
deriving DecidableEq

/-! ## JS `Record<string, T>` object model -/

/-- Lookup `m[k]` on a JS record (first entry with the key; keys are unique
in every state reachable through the operations below). -/
def getKey {α : Type} : List (String × α) → String → Option α
  | [], _ => Option.none
  | (a, b) :: m, k => if a = k then some b else getKey m k

/-- Assignment `m[k] = v` on a JS record: update in place when the key
exists, append otherwise. -/
def setKey {α : Type} : List (String × α) → String → α → List (String × α)
  | [], k, v => [(k, v)]
  | (a, b) :: m, k, v => if a = k then (k, v) :: m else (a, b) :: setKey m k v

/-- `delete m[k]` on a JS record. -/
def delKey {α : Type} : List (String × α) → String → List (String × α)
  | [], _ => []
  | (a, b) :: m, k => if a = k then delKey m k else (a, b) :: delKey m k

/-! ## JS string helpers -/

/-- Whitespace recognised by JavaScript `String.prototype.trim` (ASCII
alphabet; the source is only ever compared against the empty string after
trimming). -/
def isJsSpace (c : Char) : Bool :=
  c = ' ' || c = '\t' || c = '\n' || c = '\r' || c = '\x0b' || c = '\x0c'

/-- JavaScript `s.trim()`. -/
def jsTrim (s : String) : String :=
  String.mk (((s.data.dropWhile isJsSpace).reverse.dropWhile isJsSpace).reverse)

/-- JavaScript `x || d` for a possibly-undefined string `x`: the default is
taken when `x` is undefined or empty (both are falsy). -/
def jsOrElse : Option String → String → String
  | some s, d => if s = "" then d else s
  | Option.none, d => d

/-! ## Component state (the refs of DefinitionStudio.vue) -/

/-- The reactive state of the Definition Studio component: the two
registries, the UI selection flags, and the two editing drafts. -/
structure StudioState where
  categories : List (String × CategoryDefinition)
  itemDefinitions : List (String × ItemDefinition)
  selectedCategoryKey : Option String
  isSidebarCollapsed : Bool
  isEditingCategory : Bool
  isEditingItem : Bool
  categoryForm : CategoryDefinition
  itemForm : ItemDefinition
deriving DecidableEq

/-! ## Format Generator (`generatedFormat` computed property) -/

/-- The `valuePart` computation inside `generatedFormat`
(DefinitionStudio.vue lines 77-88), as a function of the draft. -/
def valuePart (itemForm : ItemDefinition) : String :=
  if itemForm.parts.length = 0 then
    "\x7b" ++ itemForm.key ++ "\x7d"
  else if itemForm.entry_type = EntryType.Single then
    String.intercalate itemForm.separator
      (itemForm.parts.map (fun p => "\x7b" ++ p.key ++ "\x7d"))
  else
    -- List
    let partTemplate :=
      if 1 < itemForm.parts.length then
        String.intercalate (jsOrElse itemForm.secondary_separator "@")
          (itemForm.parts.map (fun p => "\x7b" ++ p.key ++ "\x7d"))
      else
        "\x7b" ++ jsOrElse (itemForm.parts.head?.map (fun p => p.key)) "item" ++ "\x7d"
    partTemplate ++ itemForm.separator ++ "..."

/-- The `generatedFormat` computed property (DefinitionStudio.vue lines
70-91): pure function of the category registry and the item draft. -/
def generatedFormat (categories : List (String × CategoryDefinition))
    (itemForm : ItemDefinition) : String :=
  if itemForm.key = "" ∨ itemForm.category = "" then ""
  else
    let cat := getKey categories itemForm.category
    let scope :=
      if cat.map CategoryDefinition.scope = some CategoryScope.shared
      then "ST" else "{角色}"
    "[" ++ scope ++ "^" ++ itemForm.category ++ "|" ++ itemForm.key ++ "::"
        ++ valuePart itemForm ++ "]"

/-! ## Registry operations -/

/-- `saveCategory` (lines 111-116): silently rejected when the trimmed key
or name is empty; otherwise upserts a copy of the draft at the draft's
(untrimmed) key and closes the drawer. -/
def saveCategory (st : StudioState) : StudioState :=
  if jsTrim st.categoryForm.key = "" ∨ jsTrim st.categoryForm.name = "" then st
  else
    { st with
      categories := setKey st.categories st.categoryForm.key st.categoryForm
      isEditingCategory := false }

/-- `saveItem` (lines 152-163): silently rejected when the trimmed key or
name is empty; otherwise overwrites the draft's `format` with the freshly
generated format and upserts a deep copy of the draft at the draft's key. -/
def saveItem (st : StudioState) : StudioState :=
  if jsTrim st.itemForm.key = "" ∨ jsTrim st.itemForm.name = "" then st
  else
    let form := { st.itemForm with
                  format := some (generatedFormat st.categories st.itemForm) }
    { st with
      itemForm := form
      itemDefinitions := setKey st.itemDefinitions form.key form
      isEditingItem := false }

/-- `deleteCategory` (lines 118-125): after operator confirmation, removes
the entry and clears the selection when it pointed at the deleted key. -/
def deleteCategory (st : StudioState) (key : String) (confirmed : Bool) :
    StudioState :=
  if confirmed then
    { st with
      categories := delKey st.categories key
      selectedCategoryKey :=
        if st.selectedCategoryKey = some key then Option.none
        else st.selectedCategoryKey }
  else st

/-- `deleteItem` (lines 165-169): after operator confirmation, removes the
item definition entry. -/
def deleteItem (st : StudioState) (key : String) (confirmed : Bool) :
    StudioState :=
  if confirmed then
    { st with itemDefinitions := delKey st.itemDefinitions key }
  else st

/-! ## Parts list editor -/

/-- `addPart` (lines 173-179): appends an empty string-typed part. -/
def addPart (parts : List ItemDefinitionPart) : List ItemDefinitionPart :=
  parts ++ [{ key := "", label := "", data_type := DataType.string }]

/-- `removePart` (lines 181-183): `parts.splice(index, 1)` with JavaScript
splice semantics — a negative index counts from the end (clamped at 0), an
index ≥ length deletes nothing. -/
def removePart (parts : List ItemDefinitionPart) (index : Int) :
    List ItemDefinitionPart :=
  let start : Nat :=
    if index < 0 then (max ((parts.length : Int) + index) 0).toNat
    else min index.toNat parts.length
  parts.take start ++ parts.drop (start + 1)

/-- `movePart` (lines 185-191): no-op when `index + direction` is out of
bounds, otherwise swaps the two positions.  The fallback arm is unreachable
for the calls the view makes (the v-for index satisfies
`index < parts.length`, under which both lookups succeed whenever the guard
passes). -/
def movePart (parts : List ItemDefinitionPart) (index : Nat)
    (direction : Int) : List ItemDefinitionPart :=
  let newIndex : Int := (index : Int) + direction
  if newIndex < 0 ∨ (parts.length : Int) ≤ newIndex then parts
  else
    match parts[index]?, parts[newIndex.toNat]? with
    | some a, some b => (parts.set index b).set newIndex.toNat a
    | _, _ => parts

/-! ## Specification-side helper definitions -/

/-- The scope token as the specification states it: `ST` exactly when the
registry resolves the category key to a definition with shared scope,
`{角色}` for character scope or an unresolved category. -/
def scopeToken (cats : List (String × CategoryDefinition))
    (categoryKey : String) : String :=
  match getKey cats categoryKey with
  | some c => if c.scope = CategoryScope.shared then "ST" else "{角色}"
  | Option.none => "{角色}"

/-- Whether a selected category always references an existing registry
entry (or is cleared). -/
def selectionValid (st : StudioState) : Prop :=
  ∀ k, st.selectedCategoryKey = some k → (getKey st.categories k).isSome = true

/-! ## Helper lemmas about the JS record model -/

theorem getKey_setKey_self {α : Type} (m : List (String × α)) (k : String)
    (v : α) : getKey (setKey m k v) k = some v := by
  induction m with
  | nil => simp [setKey, getKey]
  | cons hd tl ih =>
    obtain ⟨a, b⟩ := hd
    by_cases h : a = k
    · simp [setKey, getKey, h]
    · simp [setKey, getKey, h, ih]

theorem getKey_setKey_ne {α : Type} (m : List (String × α)) (k : String)
    (v : α) (q : String) (h : q ≠ k) :
    getKey (setKey m k v) q = getKey m q := by
  induction m with
  | nil => simp [setKey, getKey, Ne.symm h]
  | cons hd tl ih =>
    obtain ⟨a, b⟩ := hd
    by_cases ha : a = k
    · subst ha
      simp [setKey, getKey, Ne.symm h]
    · simp only [setKey, if_neg ha, getKey]
      by_cases hq : a = q <;> simp [hq, ih]

theorem setKey_setKey_same {α : Type} (m : List (String × α)) (k : String)
    (v : α) : setKey (setKey m k v) k v = setKey m k v := by
  induction m with
  | nil => simp [setKey]
  | cons hd tl ih =>
    obtain ⟨a, b⟩ := hd
    by_cases h : a = k
    · simp [setKey, h]
    · simp [setKey, h, ih]

theorem getKey_delKey_self {α : Type} (m : List (String × α)) (k : String) :
    getKey (delKey m k) k = Option.none := by
  induction m with
  | nil => simp [delKey, getKey]
  | cons hd tl ih =>
    obtain ⟨a, b⟩ := hd
    by_cases h : a = k
    · simp [delKey, h, ih]
    · simp [delKey, getKey, h, ih]

theorem getKey_delKey_ne {α : Type} (m : List (String × α)) (k q : String)
    (h : q ≠ k) : getKey (delKey m k) q = getKey m q := by
  induction m with
  | nil => simp [delKey]
  | cons hd tl ih =>
    obtain ⟨a, b⟩ := hd
    by_cases ha : a = k
    · subst ha
      simp [delKey, getKey, Ne.symm h, ih]
    · simp [delKey, getKey, ha, ih]

/-! ## Helper lemmas about the Format Generator -/

/-- The generator never reads the draft's `format` field. -/
theorem generatedFormat_format_irrel
    (cats : List (String × CategoryDefinition)) (f : ItemDefinition)
    (x : Option String) :
    generatedFormat cats { f with format := x } = generatedFormat cats f := by
  cases f
  rfl

/-- Shape of the generator output: the guard on empty key/category, and the
bracketed token layout around `scopeToken` and `valuePart`. -/
theorem generatedFormat_shape (cats : List (String × CategoryDefinition))
    (f : ItemDefinition) :
    generatedFormat cats f =
      if f.key = "" ∨ f.category = "" then ""
      else
        "[" ++ scopeToken cats f.category ++ "^" ++ f.category ++ "|"
            ++ f.key ++ "::" ++ valuePart f ++ "]" := by
  unfold generatedFormat scopeToken
  split
  · rfl
  · cases hgk : getKey cats f.category with
    | none => simp [hgk]
    | some c => cases hsc : c.scope <;> simp [hgk, hsc]

/-- Unfolding `saveCategory` on an accepted draft. -/
theorem saveCategory_accept (st : StudioState)
    (h : ¬ (jsTrim st.categoryForm.key = "" ∨ jsTrim st.categoryForm.name = "")) :
    saveCategory st =
      { st with
        categories := setKey st.categories st.categoryForm.key st.categoryForm
        isEditingCategory := false } := by
  unfold saveCategory
  rw [if_neg h]

/-- Unfolding `saveCategory` on a rejected draft. -/
theorem saveCategory_reject (st : StudioState)
    (h : jsTrim st.categoryForm.key = "" ∨ jsTrim st.categoryForm.name = "") :
    saveCategory st = st := by
  unfold saveCategory
  rw [if_pos h]

/-- Unfolding `saveItem` on an accepted draft. -/
theorem saveItem_accept (st : StudioState)
    (h : ¬ (jsTrim st.itemForm.key = "" ∨ jsTrim st.itemForm.name = "")) :
    saveItem st =
      { st with
        itemForm := { st.itemForm with
                      format := some (generatedFormat st.categories st.itemForm) }
        itemDefinitions :=
          setKey st.itemDefinitions st.itemForm.key
            { st.itemForm with
              format := some (generatedFormat st.categories st.itemForm) }
        isEditingItem := false } := by
  unfold saveItem
  rw [if_neg h]

/-- Unfolding `saveItem` on a rejected draft. -/
theorem saveItem_reject (st : StudioState)
    (h : jsTrim st.itemForm.key = "" ∨ jsTrim st.itemForm.name = "") :
    saveItem st = st := by
  unfold saveItem
  rw [if_pos h]

/-! ## Concrete fixtures used by counterexamples and witnesses -/

/-- Fixture: single part whose key is the empty string. -/
def partEmptyKey : ItemDefinitionPart :=
  { key := "", label := "", data_type := DataType.string }

/-- Fixture: part keyed `a`. -/
def partA : ItemDefinitionPart :=
  { key := "a", label := "", data_type := DataType.string }

/-- Fixture: part keyed `b`. -/
def partB : ItemDefinitionPart :=
  { key := "b", label := "", data_type := DataType.string }

/-- Fixture: List draft with one empty-keyed part. -/
def listDraftEmptyPartKey : ItemDefinition :=
  { key := "k", name := "n", category := "c", entry_type := EntryType.List,
    parts := [partEmptyKey], separator := "|", secondary_separator := some "@" }

/-- Fixture: List draft with two parts and an empty secondary separator. -/
def listDraftEmptySecondary : ItemDefinition :=
  { key := "k", name := "n", category := "c", entry_type := EntryType.List,
    parts := [partA, partB], separator := "|", secondary_separator := some "" }

/-- Fixture: the initial `itemForm` draft of the component. -/
def initialItemForm : ItemDefinition :=
  { key := "", name := "", icon := some "", category := "",
    entry_type := EntryType.Single, parts := [], separator := "|",
    secondary_separator := some "@", description := some "" }

/-- Fixture: a state whose category draft has a whitespace-only key. -/
def blankKeyState : StudioState :=
  { categories := [], itemDefinitions := [],
    selectedCategoryKey := Option.none, isSidebarCollapsed := false,
    isEditingCategory := true, isEditingItem := false,
    categoryForm := { key := " ", name := "x", icon := "folder", order := 0,
                      scope := CategoryScope.character },
    itemForm := initialItemForm }

/-- Fixture: a state whose two drafts are both valid. -/
def validFormsState : StudioState :=
  { categories := [], itemDefinitions := [],
    selectedCategoryKey := Option.none, isSidebarCollapsed := false,
    isEditingCategory := true, isEditingItem := true,
    categoryForm := { key := "CV", name := "角色属性", icon := "folder",
                      order := 0, scope := CategoryScope.character },
    itemForm := { key := "HP", name := "生命值", category := "CV",
                  entry_type := EntryType.Single, parts := [partA],
                  separator := "|" } }

/-- Fixture: a state with two categories, one stored item referencing the
selected category. -/
def deleteFixtureState : StudioState :=
  { categories :=
      [("CV", { key := "CV", name := "角色属性", icon := "folder", order := 0,
                scope := CategoryScope.character }),
       ("ST1", { key := "ST1", name := "世界", icon := "folder", order := 1,
                 scope := CategoryScope.shared })],
    itemDefinitions :=
      [("HP", { key := "HP", name := "生命值", category := "CV",
                entry_type := EntryType.Single, parts := [partA],
                separator := "|" })],
    selectedCategoryKey := some "CV", isSidebarCollapsed := false,
    isEditingCategory := false, isEditingItem := false,
    categoryForm := { key := "", name := "", icon := "folder", order := 0,
                      scope := CategoryScope.character },
    itemForm := initialItemForm }

/-! ## Claims -/

/-- Claim C1: `generatedFormat` is a pure function of the draft and the
category registry; it returns the empty string when the draft's key or
category is empty, and otherwise the bracketed layout
`[scope_token^category|key::value_part]` where the scope token is `ST`
exactly when the registry resolves the category to a shared-scope
definition and `{角色}` otherwise. -/
theorem claim1_generatedFormat_shape
    (cats : List (String × CategoryDefinition)) (f : ItemDefinition) :
    generatedFormat cats f =
      if f.key = "" ∨ f.category = "" then ""
      else
        "[" ++ scopeToken cats f.category ++ "^" ++ f.category ++ "|"
            ++ f.key ++ "::" ++ valuePart f ++ "]" :=
  generatedFormat_shape cats f

/-- Claim C2, counterexample: the claim predicts the value part wraps the
single part's raw key (`{}` for an empty part key) and joins multiple part
keys with the raw secondary separator (here the empty string); the code
instead substitutes `item` for an empty single part key and `@` for an
empty secondary separator. -/
theorem claim2_counterexample :
    generatedFormat [] listDraftEmptyPartKey = "[{角色}^c|k::{item}|...]" ∧
    generatedFormat [] listDraftEmptyPartKey ≠ "[{角色}^c|k::{}|...]" ∧
    generatedFormat [] listDraftEmptySecondary = "[{角色}^c|k::{a}@{b}|...]" ∧
    generatedFormat [] listDraftEmptySecondary ≠ "[{角色}^c|k::{a}{b}|...]" :=
  ⟨by decide, by decide, by decide, by decide⟩

/-- Claim C2, amended: for a List draft with non-empty key and category the
value part is `part_template + separator + "..."`, where for a single part
the template wraps the part's key — falling back to the literal `item` when
that key is empty — and for several parts the template joins the wrapped
keys with the secondary separator, defaulting to `@` when it is unset or
empty. -/
theorem claim2_list_value_part
    (cats : List (String × CategoryDefinition)) (f : ItemDefinition)
    (hk : f.key ≠ "") (hc : f.category ≠ "")
    (ht : f.entry_type = EntryType.List) :
    (∀ p, f.parts = [p] →
      generatedFormat cats f =
        "[" ++ scopeToken cats f.category ++ "^" ++ f.category ++ "|"
            ++ f.key ++ "::"
            ++ ("\x7b" ++ (if p.key = "" then "item" else p.key) ++ "\x7d"
                ++ f.separator ++ "...")
            ++ "]") ∧
    (1 < f.parts.length →
      generatedFormat cats f =
        "[" ++ scopeToken cats f.category ++ "^" ++ f.category ++ "|"
            ++ f.key ++ "::"
            ++ (String.intercalate
                  (match f.secondary_separator with
                   | some s => if s = "" then "@" else s
                   | Option.none => "@")
                  (f.parts.map (fun p => "\x7b" ++ p.key ++ "\x7d"))
                ++ f.separator ++ "...")
            ++ "]") := by
  rw [generatedFormat_shape, if_neg (not_or.mpr ⟨hk, hc⟩)]
  constructor
  · intro p hp
    have hvp : valuePart f =
        "\x7b" ++ (if p.key = "" then "item" else p.key) ++ "\x7d"
          ++ f.separator ++ "..." := by
      unfold valuePart
      rw [hp]
      simp [ht, jsOrElse]
    rw [hvp]
  · intro hlen
    have hvp : valuePart f =
        String.intercalate
          (match f.secondary_separator with
           | some s => if s = "" then "@" else s
           | Option.none => "@")
          (f.parts.map (fun p => "\x7b" ++ p.key ++ "\x7d"))
          ++ f.separator ++ "..." := by
      unfold valuePart
      have h0 : ¬ f.parts.length = 0 := by omega
      have hsep : jsOrElse f.secondary_separator "@" =
          (match f.secondary_separator with
           | some s => if s = "" then "@" else s
           | Option.none => "@") := by
        cases f.secondary_separator <;> rfl
      simp [h0, ht, hlen, hsep]
    rw [hvp]

/-- Claim C2 witness: a single-part List draft with a non-empty part key
and separator `|` produces the value part `{a}|...`. -/
theorem claim2_list_value_part_witness :
    generatedFormat []
      { key := "k", name := "n", category := "c",
        entry_type := EntryType.List, parts := [partA], separator := "|" }
      = "[{角色}^c|k::{a}|...]" := by
  have h := (claim2_list_value_part []
    { key := "k", name := "n", category := "c",
      entry_type := EntryType.List, parts := [partA], separator := "|" }
    (by decide) (by decide) rfl).1 partA rfl
  exact h.trans (by decide)

/-- Claim C3: for a Single draft with non-empty key, category and parts,
the value part wraps each part's key as `{key}` and joins the wrapped keys
in part order with the separator. -/
theorem claim3_single_value_part
    (cats : List (String × CategoryDefinition)) (f : ItemDefinition)
    (hk : f.key ≠ "") (hc : f.category ≠ "")
    (ht : f.entry_type = EntryType.Single) (hp : f.parts ≠ []) :
    generatedFormat cats f =
      "[" ++ scopeToken cats f.category ++ "^" ++ f.category ++ "|"
          ++ f.key ++ "::"
          ++ String.intercalate f.separator
              (f.parts.map (fun p => "\x7b" ++ p.key ++ "\x7d"))
          ++ "]" := by
  rw [generatedFormat_shape, if_neg (not_or.mpr ⟨hk, hc⟩)]
  have hvp : valuePart f =
      String.intercalate f.separator
        (f.parts.map (fun p => "\x7b" ++ p.key ++ "\x7d")) := by
    unfold valuePart
    have h0 : ¬ f.parts.length = 0 := by
      simpa [List.length_eq_zero] using hp
    simp [h0, ht]
  rw [hvp]

/-- Claim C3 witness: a two-part Single draft with separator `|` gives
value part `{a}|{b}` (the spec's `HP` scenario shape). -/
theorem claim3_single_value_part_witness :
    generatedFormat []
      { key := "HP", name := "生命值", category := "CV",
        entry_type := EntryType.Single, parts := [partA, partB],
        separator := "|" }
      = "[{角色}^CV|HP::{a}|{b}]" := by
  have h := claim3_single_value_part []
    { key := "HP", name := "生命值", category := "CV",
      entry_type := EntryType.Single, parts := [partA, partB],
      separator := "|" }
    (by decide) (by decide) rfl (by decide)
  exact h.trans (by decide)

/-- Claim C4: for a draft with non-empty key and category and no parts, the
value part is the draft's own key wrapped in braces, regardless of entry
type. -/
theorem claim4_empty_parts_value_part
    (cats : List (String × CategoryDefinition)) (f : ItemDefinition)
    (hk : f.key ≠ "") (hc : f.category ≠ "") (hp : f.parts = []) :
    generatedFormat cats f =
      "[" ++ scopeToken cats f.category ++ "^" ++ f.category ++ "|"
          ++ f.key ++ "::" ++ ("\x7b" ++ f.key ++ "\x7d") ++ "]" := by
  rw [generatedFormat_shape, if_neg (not_or.mpr ⟨hk, hc⟩)]
  have hvp : valuePart f = "\x7b" ++ f.key ++ "\x7d" := by
    unfold valuePart
    simp [hp]
  rw [hvp]

/-- Claim C4 witness: the spec's shared-scope scenario — category `ST1`
with shared scope and the part-less item `天气` produce
`[ST^ST1|天气::{天气}]`. -/
theorem claim4_empty_parts_value_part_witness :
    generatedFormat
      [("ST1", { key := "ST1", name := "世界", icon := "folder", order := 0,
                 scope := CategoryScope.shared })]
      { key := "天气", name := "天气", category := "ST1",
        entry_type := EntryType.Single, parts := [], separator := "|" }
      = "[ST^ST1|天气::{天气}]" := by
  have h := claim4_empty_parts_value_part
    [("ST1", { key := "ST1", name := "世界", icon := "folder", order := 0,
               scope := CategoryScope.shared })]
    { key := "天气", name := "天气", category := "ST1",
      entry_type := EntryType.Single, parts := [], separator := "|" }
    (by decide) (by decide) rfl
  exact h.trans (by decide)

/-- Claim C5, counterexample: a category draft whose key is a single space
has a non-empty key and name, yet the save is a silent no-op and no entry
is created — the code tests the trimmed fields, not mere non-emptiness. -/
theorem claim5_counterexample :
    blankKeyState.categoryForm.key ≠ "" ∧
    blankKeyState.categoryForm.name ≠ "" ∧
    saveCategory blankKeyState = blankKeyState ∧
    getKey (saveCategory blankKeyState).categories
      blankKeyState.categoryForm.key = Option.none := by
  refine ⟨by decide, by decide, ?_, ?_⟩
  · exact saveCategory_reject blankKeyState (Or.inl (by decide))
  · rw [saveCategory_reject blankKeyState (Or.inl (by decide))]
    decide

/-- Claim C5, amended: for both registries a save is accepted if and only
if the draft's key and name are non-empty after trimming whitespace; a
rejected save leaves the whole state (both registries and the draft)
unchanged, and an accepted save inserts or fully replaces the entry at the
draft's key, leaving every other key and the other registry untouched. -/
theorem claim5_save_validation (st : StudioState) :
    (jsTrim st.categoryForm.key = "" ∨ jsTrim st.categoryForm.name = "" →
      saveCategory st = st) ∧
    (jsTrim st.categoryForm.key ≠ "" ∧ jsTrim st.categoryForm.name ≠ "" →
      getKey (saveCategory st).categories st.categoryForm.key
          = some st.categoryForm ∧
      (∀ k, k ≠ st.categoryForm.key →
        getKey (saveCategory st).categories k = getKey st.categories k) ∧
      (saveCategory st).itemDefinitions = st.itemDefinitions ∧
      (saveCategory st).categoryForm = st.categoryForm ∧
      (saveCategory st).itemForm = st.itemForm) ∧
    (jsTrim st.itemForm.key = "" ∨ jsTrim st.itemForm.name = "" →
      saveItem st = st) ∧
    (jsTrim st.itemForm.key ≠ "" ∧ jsTrim st.itemForm.name ≠ "" →
      getKey (saveItem st).itemDefinitions st.itemForm.key
          = some { st.itemForm with
                   format := some (generatedFormat st.categories st.itemForm) } ∧
      (∀ k, k ≠ st.itemForm.key →
        getKey (saveItem st).itemDefinitions k = getKey st.itemDefinitions k) ∧
      (saveItem st).categories = st.categories ∧
      (saveItem st).categoryForm = st.categoryForm) := by
  refine ⟨saveCategory_reject st, ?_, saveItem_reject st, ?_⟩
  · rintro ⟨h1, h2⟩
    rw [saveCategory_accept st (not_or.mpr ⟨h1, h2⟩)]
    exact ⟨getKey_setKey_self _ _ _,
      fun k hk => getKey_setKey_ne _ _ _ _ hk, rfl, rfl, rfl⟩
  · rintro ⟨h1, h2⟩
    rw [saveItem_accept st (not_or.mpr ⟨h1, h2⟩)]
    exact ⟨getKey_setKey_self _ _ _,
      fun k hk => getKey_setKey_ne _ _ _ _ hk, rfl, rfl⟩

/-- Claim C5 witness: the whitespace-key state is rejected unchanged, and a
valid category draft is stored under its key. -/
theorem claim5_save_validation_witness :
    saveCategory blankKeyState = blankKeyState ∧
    getKey (saveCategory validFormsState).categories "CV"
      = some validFormsState.categoryForm :=
  ⟨(claim5_save_validation blankKeyState).1 (Or.inl (by decide)),
   ((claim5_save_validation validFormsState).2.1 ⟨by decide, by decide⟩).1⟩

/-- Claim C6: an accepted item save stores an entry whose `format` field is
the Format Generator output for the draft and the current category
registry; the generator ignores the draft's incoming `format` value, so it
never survives into the stored entry. -/
theorem claim6_stored_format_fresh (st : StudioState)
    (hk : jsTrim st.itemForm.key ≠ "") (hn : jsTrim st.itemForm.name ≠ "") :
    (getKey (saveItem st).itemDefinitions st.itemForm.key).map
        ItemDefinition.format
      = some (some (generatedFormat st.categories st.itemForm)) ∧
    ∀ x : Option String,
      generatedFormat st.categories { st.itemForm with format := x }
        = generatedFormat st.categories st.itemForm := by
  constructor
  · rw [saveItem_accept st (not_or.mpr ⟨hk, hn⟩)]
    rw [getKey_setKey_self]
    rfl
  · intro x
    exact generatedFormat_format_irrel st.categories st.itemForm x

/-- Claim C6 witness: saving the valid `HP` draft stores the freshly
generated format string. -/
theorem claim6_stored_format_fresh_witness :
    (getKey (saveItem validFormsState).itemDefinitions "HP").map
        ItemDefinition.format
      = some (some "[{角色}^CV|HP::{a}]") := by
  have h := (claim6_stored_format_fresh validFormsState
    (by decide) (by decide)).1
  exact h.trans (by decide)

/-- Claim C7: a confirmed `deleteCategory k` removes the entry at `k` (and
succeeds when `k` is absent), leaves every other category entry and the
whole item definition registry unchanged, clears the selection exactly when
it equals `k`, and preserves the invariant that the selection references an
existing entry or is null. -/
theorem claim7_deleteCategory (st : StudioState) (k : String) :
    getKey (deleteCategory st k true).categories k = Option.none ∧
    (∀ q, q ≠ k →
      getKey (deleteCategory st k true).categories q = getKey st.categories q) ∧
    (deleteCategory st k true).selectedCategoryKey
      = (if st.selectedCategoryKey = some k then Option.none
         else st.selectedCategoryKey) ∧
    (deleteCategory st k true).itemDefinitions = st.itemDefinitions ∧
    (selectionValid st → selectionValid (deleteCategory st k true)) := by
  refine ⟨getKey_delKey_self _ _,
    fun q hq => getKey_delKey_ne _ _ _ hq, rfl, rfl, ?_⟩
  intro hsel q hq
  have hq2 : (if st.selectedCategoryKey = some k then Option.none
      else st.selectedCategoryKey) = some q := hq
  by_cases hk : st.selectedCategoryKey = some k
  · rw [if_pos hk] at hq2
    exact absurd hq2 (by simp)
  · rw [if_neg hk] at hq2
    have hqk : q ≠ k := fun h => hk (h ▸ hq2)
    have hg := hsel q hq2
    show (getKey (delKey st.categories k) q).isSome = true
    rwa [getKey_delKey_ne _ _ _ hqk]

/-- Claim C7 witness: deleting the selected category `CV` from the fixture
removes it, keeps `ST1` and the item registry, and restores the selection
invariant. -/
theorem claim7_deleteCategory_witness :
    getKey (deleteCategory deleteFixtureState "CV" true).categories "CV"
      = Option.none ∧
    getKey (deleteCategory deleteFixtureState "CV" true).categories "ST1"
      = getKey deleteFixtureState.categories "ST1" ∧
    (deleteCategory deleteFixtureState "CV" true).itemDefinitions
      = deleteFixtureState.itemDefinitions ∧
    selectionValid (deleteCategory deleteFixtureState "CV" true) := by
  have h := claim7_deleteCategory deleteFixtureState "CV"
  refine ⟨h.1, h.2.1 "ST1" (by decide), h.2.2.2.1, h.2.2.2.2 ?_⟩
  intro q hq
  have hq' : some "CV" = some q := hq
  have := Option.some.inj hq'
  subst this
  decide

/-- Claim C8: saving the same valid draft twice in succession leaves both
registries exactly as after a single save, for the category registry and
the item definition registry alike. -/
theorem claim8_upsert_idempotent (st : StudioState)
    (hck : jsTrim st.categoryForm.key ≠ "")
    (hcn : jsTrim st.categoryForm.name ≠ "")
    (hik : jsTrim st.itemForm.key ≠ "")
    (hin : jsTrim st.itemForm.name ≠ "") :
    (saveCategory (saveCategory st)).categories
        = (saveCategory st).categories ∧
    (saveCategory (saveCategory st)).itemDefinitions
        = (saveCategory st).itemDefinitions ∧
    (saveItem (saveItem st)).itemDefinitions
        = (saveItem st).itemDefinitions ∧
    (saveItem (saveItem st)).categories = (saveItem st).categories := by
  have hc := not_or.mpr ⟨hck, hcn⟩
  have hi := not_or.mpr ⟨hik, hin⟩
  have hcat : saveCategory (saveCategory st) = saveCategory st := by
    simp [saveCategory, hc, setKey_setKey_same]
  have hitem : saveItem (saveItem st) = saveItem st := by
    simp [saveItem, hi, setKey_setKey_same, generatedFormat_format_irrel]
  exact ⟨by rw [hcat], by rw [hcat], by rw [hitem], by rw [hitem]⟩

/-- Claim C8 witness: double-saving the valid fixture drafts changes
neither registry beyond the single save. -/
theorem claim8_upsert_idempotent_witness :
    (saveCategory (saveCategory validFormsState)).categories
        = (saveCategory validFormsState).categories ∧
    (saveItem (saveItem validFormsState)).itemDefinitions
        = (saveItem validFormsState).itemDefinitions := by
  have h := claim8_upsert_idempotent validFormsState
    (by decide) (by decide) (by decide) (by decide)
  exact ⟨h.1, h.2.2.1⟩

/-- Claim C9: with direction ±1, `movePart` swaps the parts at `index` and
`index + direction` and leaves every other position (and the length)
unchanged; when `index + direction` falls outside the list it is a no-op —
in particular `movePart parts 0 (-1)` never changes the list. -/
theorem claim9_movePart (parts : List ItemDefinitionPart) (index : Nat)
    (direction : Int) (hdir : direction = -1 ∨ direction = 1) :
    (((index : Int) + direction < 0 ∨
        (parts.length : Int) ≤ (index : Int) + direction) →
      movePart parts index direction = parts) ∧
    (∀ j : Nat, (j : Int) = (index : Int) + direction →
      index < parts.length → j < parts.length →
      (movePart parts index direction).length = parts.length ∧
      (movePart parts index direction)[index]? = parts[j]? ∧
      (movePart parts index direction)[j]? = parts[index]? ∧
      (∀ m, m ≠ index → m ≠ j →
        (movePart parts index direction)[m]? = parts[m]?)) ∧
    movePart parts 0 (-1) = parts := by
  refine ⟨?_, ?_, ?_⟩
  · intro h
    simp only [movePart]
    rw [if_pos h]
  · intro j hj hi hjlen
    have hcond : ¬ ((index : Int) + direction < 0 ∨
        (parts.length : Int) ≤ (index : Int) + direction) := by
      rw [← hj]
      omega
    have htn : ((index : Int) + direction).toNat = j := by omega
    have hij : index ≠ j := by omega
    have ha : parts[index]? = some parts[index] := List.getElem?_eq_getElem hi
    have hb : parts[j]? = some parts[j] := List.getElem?_eq_getElem hjlen
    have hres : movePart parts index direction =
        (parts.set index parts[j]).set j parts[index] := by
      simp only [movePart]
      rw [if_neg hcond, htn, ha, hb]
    rw [hres]
    refine ⟨by simp, ?_, ?_, ?_⟩
    · rw [List.getElem?_set_ne (Ne.symm hij),
        List.getElem?_set_self (by simpa using hi), hb]
    · rw [List.getElem?_set_self (by simpa using hjlen), ha]
    · intro m hmi hmj
      rw [List.getElem?_set_ne (Ne.symm hmj), List.getElem?_set_ne (Ne.symm hmi)]
  · simp only [movePart]
    rw [if_pos (Or.inl (by omega))]

/-- Claim C9 witness: swapping the two parts of a two-part list with
`movePart 0 1`, and the no-op `movePart 0 (-1)`. -/
theorem claim9_movePart_witness :
    (movePart [partA, partB] 0 1)[0]? = some partB ∧
    (movePart [partA, partB] 0 1)[1]? = some partA ∧
    movePart [partA, partB] 0 (-1) = [partA, partB] := by
  have h := (claim9_movePart [partA, partB] 0 1 (Or.inr rfl)).2.1 1
    (by decide) (by decide) (by decide)
  have h0 := (claim9_movePart [partA, partB] 0 (-1) (Or.inl rfl)).2.2
  exact ⟨h.2.1.trans (by decide), h.2.2.1.trans (by decide), h0⟩

/-- Claim C10: `removePart` is total on every integer index — an index at
or beyond the parts length deletes nothing, and a negative index follows
JavaScript splice semantics, so `removePart parts (-1)` on a non-empty list
removes exactly the last part. -/
theorem claim10_removePart (parts : List ItemDefinitionPart) :
    (∀ index : Int, (parts.length : Int) ≤ index →
      removePart parts index = parts) ∧
    (parts ≠ [] → removePart parts (-1) = parts.dropLast) := by
  constructor
  · intro index h
    have hneg : ¬ index < 0 := by omega
    have hmin : min index.toNat parts.length = parts.length := by omega
    simp only [removePart]
    rw [if_neg hneg, hmin, List.take_length,
      List.drop_eq_nil_of_le (by omega), List.append_nil]
  · intro hne
    have hlen : 1 ≤ parts.length := List.length_pos.mpr hne
    have hpos : (-1 : Int) < 0 := by omega
    have hmax : (max ((parts.length : Int) + (-1)) 0).toNat
        = parts.length - 1 := by omega
    simp only [removePart]
    rw [if_pos hpos, hmax, show parts.length - 1 + 1 = parts.length by omega,
      List.drop_length, List.append_nil, List.dropLast_eq_take]

/-- Claim C10 witness: on a two-part list, index 2 deletes nothing and
index -1 deletes the last part. -/
theorem claim10_removePart_witness :
    removePart [partA, partB] 2 = [partA, partB] ∧
    removePart [partA, partB] (-1) = [partA] := by
  have h := claim10_removePart [partA, partB]
  exact ⟨h.1 2 (by decide), (h.2 (by decide)).trans (by decide)⟩

end StatusBarFramework
